import Mathlib

/-!
Verification of the webpack configuration in `webpack.config.js`.

The file under `src/` exports a single declarative configuration object:
a mode, one entry point, an output descriptor, a dev-server descriptor,
three module rules (each with a literal test regex) and two plugins.
We embed that object as a `JsValue` tree, give the four regex literals of
the source an executable matching semantics, and prove the documented
properties of the matchers, the filename templates and the field layout.
-/

namespace WebpackOverview

/-- Boolean equality of character lists (the comparison JS performs on
literal pattern fragments). -/
def eqL : List Char → List Char → Bool
  | [], [] => true
  | a :: as, b :: bs => a == b && eqL as bs
  | _, _ => false

/-- Test that `n` occurs at the very start of `h`. -/
def startsWithL : List Char → List Char → Bool
  | [], _ => true
  | _ :: _, [] => false
  | a :: as, b :: bs => a == b && startsWithL as bs

/-- Test that `n` occurs at the very end of `h` (the semantics of an
end-anchored literal regex such as the scss test). -/
def endsWithL (n : List Char) : List Char → Bool
  | [] => eqL n []
  | c :: cs => eqL n (c :: cs) || endsWithL n cs

/-- Test that `n` occurs anywhere inside `h` (the semantics of an
unanchored literal regex such as the node_modules exclusion). -/
def occursIn (n : List Char) : List Char → Bool
  | [] => startsWithL n []
  | c :: cs => startsWithL n (c :: cs) || occursIn n cs

theorem eqL_iff : ∀ a b : List Char, eqL a b = true ↔ a = b
  | [], [] => by simp [eqL]
  | [], _ :: _ => by simp [eqL]
  | _ :: _, [] => by simp [eqL]
  | a :: as, b :: bs => by
    rw [eqL, Bool.and_eq_true, beq_iff_eq, eqL_iff as bs]
    constructor
    · rintro ⟨rfl, rfl⟩; rfl
    · intro h; injection h with h1 h2; exact ⟨h1, h2⟩

theorem startsWithL_iff : ∀ n h : List Char, startsWithL n h = true ↔ n <+: h
  | [], h => by simp [startsWithL, List.nil_prefix]
  | a :: as, [] => by
    rw [startsWithL]
    constructor
    · intro h; cases h
    · rintro ⟨t, ht⟩; cases ht
  | a :: as, b :: bs => by
    rw [startsWithL, Bool.and_eq_true, beq_iff_eq, startsWithL_iff as bs]
    constructor
    · rintro ⟨rfl, t, rfl⟩; exact ⟨t, rfl⟩
    · rintro ⟨t, ht⟩
      injection ht with h1 h2
      exact ⟨h1, t, h2⟩

theorem endsWithL_iff : ∀ n h : List Char, endsWithL n h = true ↔ n <:+ h
  | n, [] => by
    rw [endsWithL, eqL_iff]
    constructor
    · rintro rfl; exact ⟨[], rfl⟩
    · rintro ⟨s, hs⟩
      rcases List.append_eq_nil.mp hs with ⟨_, rfl⟩
      rfl
  | n, c :: cs => by
    rw [endsWithL, Bool.or_eq_true, eqL_iff, endsWithL_iff n cs]
    constructor
    · rintro (rfl | ⟨s, rfl⟩)
      · exact ⟨[], rfl⟩
      · exact ⟨c :: s, rfl⟩
    · rintro ⟨s, hs⟩
      cases s with
      | nil => exact Or.inl hs
      | cons x s =>
        injection hs with h1 h2
        exact Or.inr ⟨s, h2⟩

theorem occursIn_iff : ∀ n h : List Char, occursIn n h = true ↔ n <:+: h
  | n, [] => by
    rw [occursIn, startsWithL_iff]
    constructor
    · rintro ⟨t, ht⟩
      rcases List.append_eq_nil.mp ht with ⟨rfl, rfl⟩
      exact ⟨[], [], rfl⟩
    · rintro ⟨s, t, hst⟩
      rcases List.append_eq_nil.mp hst with ⟨hs, rfl⟩
      rcases List.append_eq_nil.mp hs with ⟨rfl, rfl⟩
      exact ⟨[], rfl⟩
  | n, c :: cs => by
    rw [occursIn, Bool.or_eq_true, startsWithL_iff, occursIn_iff n cs]
    constructor
    · rintro (⟨t, ht⟩ | ⟨s, t, rfl⟩)
      · exact ⟨[], t, by simpa using ht⟩
      · exact ⟨c :: s, t, rfl⟩
    · rintro ⟨s, t, hst⟩
      cases s with
      | nil => exact Or.inl ⟨t, hst⟩
      | cons x s =>
        injection hst with h1 h2
        exact Or.inr ⟨s, t, h2⟩

/-- A literal-alternative regex, the shape of every regex literal in
`webpack.config.js`: a list of literal alternatives (the escaped dot `\.`
is the literal character `.`), an optional end anchor `$`, and an optional
case-insensitivity flag `i`. -/
structure LitRegex where
  alts : List (List Char)
  anchorEnd : Bool
  ignoreCase : Bool

/-- Case canonicalisation applied by the `i` flag. -/
def canonChar (ic : Bool) (c : Char) : Char := if ic then c.toLower else c

/-- Matching semantics of a `LitRegex` against a path: some alternative
occurs at the end (when anchored by `$`) or anywhere (when unanchored),
after lowering case on both sides when the `i` flag is set. -/
def regexMatches (r : LitRegex) (p : List Char) : Bool :=
  r.alts.any fun a =>
    if r.anchorEnd then
      endsWithL (a.map (canonChar r.ignoreCase)) (p.map (canonChar r.ignoreCase))
    else
      occursIn (a.map (canonChar r.ignoreCase)) (p.map (canonChar r.ignoreCase))

/-- Test regex of the first module rule: an end-anchored `.scss`. -/
def scssRegex : LitRegex := ⟨[".scss".data], true, false⟩

/-- Test regex of the second module rule: an end-anchored `.js`. -/
def jsRegex : LitRegex := ⟨[".js".data], true, false⟩

/-- Exclusion regex of the second module rule: an unanchored
`node_modules`. -/
def nodeModulesRegex : LitRegex := ⟨["node_modules".data], false, false⟩

/-- Test regex of the third module rule: the end-anchored case-insensitive
image alternation, the leading escaped dot distributed over the group. -/
def assetRegex : LitRegex :=
  ⟨[".png".data, ".svg".data, ".jpg".data, ".jpeg".data, ".gif".data], true, true⟩

/-- A JavaScript value as it appears in the exported configuration object:
strings, numbers, booleans, regex literals, the result of a
`path.resolve(base, rel)` call kept symbolic, arrays, plain objects, and
plugin instances (`new P(options)`). -/
inductive JsValue where
  | str (s : String)
  | num (n : Nat)
  | bool (b : Bool)
  | regex (r : LitRegex)
  | resolvedPath (base rel : String)
  | arr (elems : List JsValue)
  | obj (fields : List (String × JsValue))
  | plugin (pluginName : String) (options : List (String × JsValue))

/-- Field lookup on a JavaScript object value. -/
def JsValue.get : JsValue → String → Option JsValue
  | .obj fields, k => fields.lookup k
  | _, _ => none

/-- Template string of `output.filename`, line 10 of the source. -/
def outputFilenameTmpl : String := "[name][contenthash].js"

/-- Template string of `output.assetModuleFilename`, line 13 of the
source. -/
def assetModuleFilenameTmpl : String := "[name][ext]"

/-- The `output` record, lines 9-14 of the source; `dirname` stands for
the `__dirname` of the module. -/
def output (dirname : String) : JsValue := .obj
  [("filename", .str outputFilenameTmpl),
   ("path", .resolvedPath dirname "dist"),
   ("clean", .bool true),
   ("assetModuleFilename", .str assetModuleFilenameTmpl)]

/-- The `devServer` record, lines 15-22 of the source. -/
def devServer (dirname : String) : JsValue := .obj
  [("static", .obj [("directory", .resolvedPath dirname "dist")]),
   ("port", .num 3000),
   ("open", .bool true),
   ("hot", .bool true)]

/-- Loader chain of the style rule, line 27 of the source, in the order
written. -/
def styleUse : List String := ["style-loader", "css-loader", "sass-loader"]

/-- First module rule (style files), lines 25-28 of the source. -/
def styleRule : JsValue := .obj
  [("test", .regex scssRegex),
   ("use", .arr (styleUse.map .str))]

/-- Second module rule (script files), lines 29-38 of the source. -/
def scriptRule : JsValue := .obj
  [("test", .regex jsRegex),
   ("exclude", .regex nodeModulesRegex),
   ("use", .obj
     [("loader", .str "babel-loader"),
      ("options", .obj [("presets", .arr [.str "@babel/preset-env"])])])]

/-- Third module rule (binary assets), lines 39-42 of the source. -/
def assetRule : JsValue := .obj
  [("test", .regex assetRegex),
   ("type", .str "asset/resource")]

/-- The exported configuration object, lines 6-53 of the source. -/
def webpackConfig (dirname : String) : JsValue := .obj
  [("mode", .str "production"),
   ("entry", .obj [("bundle", .resolvedPath dirname "src/index.js")]),
   ("output", output dirname),
   ("devServer", devServer dirname),
   ("module", .obj [("rules", .arr [styleRule, scriptRule, assetRule])]),
   ("plugins", .arr
     [.plugin "HtmlWebpackPlugin"
       [("title", .str "Webpack Overview"),
        ("filename", .str "index.html"),
        ("template", .str "src/template.html")],
      .plugin "BundleAnalyzerPlugin" []])]

/-- Modelled from the spec: the external engine applies a module rule to a
file exactly when the rule's `test` regex matches the file's path and its
`exclude` regex (when present) does not. -/
def ruleApplies (rule : JsValue) (p : List Char) : Bool :=
  (match rule.get "test" with
   | some (.regex r) => regexMatches r p
   | _ => false) &&
  !(match rule.get "exclude" with
    | some (.regex r) => regexMatches r p
    | _ => false)

/-- Modelled from the spec: the external engine produces an output filename
by substituting the source directory, target name, extension and content
hash for the corresponding bracketed tokens of a filename template. -/
def substTokens (dir nm ext hash : List Char) : List Char → List Char
  | '[' :: 'p' :: 'a' :: 't' :: 'h' :: ']' :: rest =>
      dir ++ substTokens dir nm ext hash rest
  | '[' :: 'n' :: 'a' :: 'm' :: 'e' :: ']' :: rest =>
      nm ++ substTokens dir nm ext hash rest
  | '[' :: 'e' :: 'x' :: 't' :: ']' :: rest =>
      ext ++ substTokens dir nm ext hash rest
  | '[' :: 'c' :: 'o' :: 'n' :: 't' :: 'e' :: 'n' :: 't' :: 'h' :: 'a' :: 's' :: 'h' :: ']' :: rest =>
      hash ++ substTokens dir nm ext hash rest
  | c :: rest => c :: substTokens dir nm ext hash rest
  | [] => []

/-- Output name of the script bundle for a given entry name and content
hash, per the `output.filename` template. -/
def scriptOutputName (nm hash : List Char) : List Char :=
  substTokens [] nm [] hash outputFilenameTmpl.data

/-- Output name of a passthrough asset, per the `assetModuleFilename`
template, for a source file with directory `dir`, base name `nm`,
extension `ext` and content hash `hash`. -/
def assetOutputName (dir nm ext hash : List Char) : List Char :=
  substTokens dir nm ext hash assetModuleFilenameTmpl.data

theorem map_canonChar_false (q : List Char) : q.map (canonChar false) = q := by
  have h : canonChar false = fun c => c := funext fun c => rfl
  simp [h]

theorem canonChar_true_eq : canonChar true = Char.toLower := funext fun _ => rfl

theorem scssRegex_matches_iff (p : List Char) :
    regexMatches scssRegex p = true ↔ ".scss".data <:+ p := by
  simp [regexMatches, scssRegex, map_canonChar_false, endsWithL_iff]

theorem jsRegex_matches_iff (p : List Char) :
    regexMatches jsRegex p = true ↔ ".js".data <:+ p := by
  simp [regexMatches, jsRegex, map_canonChar_false, endsWithL_iff]

theorem nodeModulesRegex_matches_iff (p : List Char) :
    regexMatches nodeModulesRegex p = true ↔ "node_modules".data <:+: p := by
  simp [regexMatches, nodeModulesRegex, map_canonChar_false, occursIn_iff]

theorem assetRegex_matches_iff (p : List Char) :
    regexMatches assetRegex p = true ↔
      (".png".data <:+ p.map Char.toLower ∨ ".svg".data <:+ p.map Char.toLower ∨
       ".jpg".data <:+ p.map Char.toLower ∨ ".jpeg".data <:+ p.map Char.toLower ∨
       ".gif".data <:+ p.map Char.toLower) := by
  have h1 : ".png".data.map Char.toLower = ".png".data := by decide
  have h2 : ".svg".data.map Char.toLower = ".svg".data := by decide
  have h3 : ".jpg".data.map Char.toLower = ".jpg".data := by decide
  have h4 : ".jpeg".data.map Char.toLower = ".jpeg".data := by decide
  have h5 : ".gif".data.map Char.toLower = ".gif".data := by decide
  simp [regexMatches, assetRegex, canonChar_true_eq, h1, h2, h3, h4, h5,
    endsWithL_iff]

/-- C2: the style rule's test is the regex for the `.scss` suffix, and that
regex matches a path exactly when the path ends with `.scss`; every other
path is rejected. -/
theorem style_test_accepts_exactly_scss (p : List Char) :
    styleRule.get "test" = some (.regex scssRegex) ∧
    (regexMatches scssRegex p = true ↔ ".scss".data <:+ p) :=
  ⟨rfl, scssRegex_matches_iff p⟩

/-- C1: the script rule applies to a path exactly when the path ends with
`.js` and does not contain `node_modules`. -/
theorem script_rule_applies_iff (p : List Char) :
    ruleApplies scriptRule p = true ↔
      (".js".data <:+ p ∧ ¬ "node_modules".data <:+: p) := by
  have hshape : ruleApplies scriptRule p =
      (regexMatches jsRegex p && !(regexMatches nodeModulesRegex p)) := rfl
  rw [hshape, Bool.and_eq_true, Bool.not_eq_true']
  constructor
  · rintro ⟨h1, h2⟩
    refine ⟨(jsRegex_matches_iff p).mp h1, fun hin => ?_⟩
    rw [(nodeModulesRegex_matches_iff p).mpr hin] at h2
    cases h2
  · rintro ⟨h1, h2⟩
    refine ⟨(jsRegex_matches_iff p).mpr h1, ?_⟩
    cases hb : regexMatches nodeModulesRegex p
    · rfl
    · exact absurd ((nodeModulesRegex_matches_iff p).mp hb) h2

/-- C3: the asset rule's test is the case-insensitive image regex, and that
regex matches a path exactly when the lowercased path ends with one of
`.png`, `.svg`, `.jpg`, `.jpeg`, `.gif`; every other suffix is rejected. -/
theorem asset_test_accepts_exactly_images (p : List Char) :
    assetRule.get "test" = some (.regex assetRegex) ∧
    (regexMatches assetRegex p = true ↔
      (".png".data <:+ p.map Char.toLower ∨ ".svg".data <:+ p.map Char.toLower ∨
       ".jpg".data <:+ p.map Char.toLower ∨ ".jpeg".data <:+ p.map Char.toLower ∨
       ".gif".data <:+ p.map Char.toLower)) :=
  ⟨rfl, assetRegex_matches_iff p⟩

/-- C4: the output filename template contains both the target-name token and
the content-hash token; the single entry is named `bundle`, and the emitted
script filename for it contains `bundle` and the content hash. -/
theorem output_filename_tokens (dirname : String) (hash : List Char) :
    ("[name]".data <:+: outputFilenameTmpl.data ∧
     "[contenthash]".data <:+: outputFilenameTmpl.data) ∧
    (webpackConfig dirname).get "entry" =
      some (.obj [("bundle", .resolvedPath dirname "src/index.js")]) ∧
    (output dirname).get "filename" = some (.str outputFilenameTmpl) ∧
    scriptOutputName "bundle".data hash = "bundle".data ++ (hash ++ ".js".data) ∧
    "bundle".data <:+: scriptOutputName "bundle".data hash ∧
    hash <:+: scriptOutputName "bundle".data hash := by
  have hred : scriptOutputName "bundle".data hash =
      "bundle".data ++ (hash ++ ".js".data) := rfl
  refine ⟨⟨by decide, by decide⟩, rfl, rfl, hred, ?_, ?_⟩
  · exact ⟨[], hash ++ ".js".data, rfl⟩
  · refine ⟨"bundle".data, ".js".data, ?_⟩
    rw [hred, List.append_assoc]

/-- C5: the style chain is exactly the three loaders, written in
reverse-application order: injection (style-loader), resolution
(css-loader), preprocessing (sass-loader); reversing the list yields the
application order sass, css, style. -/
theorem style_chain_reverse_order :
    styleRule.get "use" = some (.arr (styleUse.map .str)) ∧
    styleUse = ["style-loader", "css-loader", "sass-loader"] ∧
    styleUse.length = 3 ∧
    styleUse.reverse = ["sass-loader", "css-loader", "style-loader"] :=
  ⟨rfl, rfl, rfl, rfl⟩

/-- C6: the dev server serves the output directory (the same resolved
path as `output.path`), on port 3000, with auto-open and hot reload both
enabled. -/
theorem devServer_descriptor (dirname : String) :
    (devServer dirname).get "static" =
      some (.obj [("directory", .resolvedPath dirname "dist")]) ∧
    (output dirname).get "path" = some (.resolvedPath dirname "dist") ∧
    ((devServer dirname).get "static").bind (fun s => s.get "directory") =
      (output dirname).get "path" ∧
    (devServer dirname).get "port" = some (.num 3000) ∧
    (devServer dirname).get "open" = some (.bool true) ∧
    (devServer dirname).get "hot" = some (.bool true) :=
  ⟨rfl, rfl, rfl, rfl, rfl, rfl⟩

/-- C7: none of `devtool`, `compress`, `historyApiFallback` is a field of
the exported configuration object, neither at top level nor inside the
`devServer` record. -/
theorem no_undocumented_options (dirname : String) :
    (webpackConfig dirname).get "devtool" = none ∧
    (webpackConfig dirname).get "compress" = none ∧
    (webpackConfig dirname).get "historyApiFallback" = none ∧
    (devServer dirname).get "devtool" = none ∧
    (devServer dirname).get "compress" = none ∧
    (devServer dirname).get "historyApiFallback" = none :=
  ⟨rfl, rfl, rfl, rfl, rfl, rfl⟩

/-- C8: the configuration's mode field is the string `production`, and in
particular not the string `development` that the walkthrough text
describes. -/
theorem mode_production_not_development (dirname : String) :
    (webpackConfig dirname).get "mode" = some (.str "production") ∧
    (webpackConfig dirname).get "mode" ≠ some (.str "development") := by
  refine ⟨rfl, ?_⟩
  intro h
  rw [show (webpackConfig dirname).get "mode" = some (.str "production") from
    rfl] at h
  injection h with h1
  injection h1 with h2
  exact absurd h2 (by decide)

/-- C9: the exclusion regex matches `node_modules` anywhere in a path, so
every path containing that substring at any position is excluded from the
script rule. -/
theorem node_modules_anywhere_excluded (p : List Char)
    (h : "node_modules".data <:+: p) :
    ruleApplies scriptRule p = false := by
  have hshape : ruleApplies scriptRule p =
      (regexMatches jsRegex p && !(regexMatches nodeModulesRegex p)) := rfl
  rw [hshape, (nodeModulesRegex_matches_iff p).mpr h]
  simp

/-- Witness for C9 at the concrete path `lib/node_modules/a.js`. -/
theorem node_modules_anywhere_excluded_witness :
    "node_modules".data <:+: "lib/node_modules/a.js".data ∧
    ruleApplies scriptRule "lib/node_modules/a.js".data = false :=
  ⟨by decide, node_modules_anywhere_excluded _ (by decide)⟩

/-- C10: the asset filename template carries the name and extension tokens
but no content-hash token, so an asset's output name is its base name plus
extension, independent of its source directory and of its content hash. -/
theorem asset_name_keeps_original_name (dir₁ dir₂ nm ext hash₁ hash₂ : List Char) :
    (¬ "[contenthash]".data <:+: assetModuleFilenameTmpl.data) ∧
    "[name]".data <:+: assetModuleFilenameTmpl.data ∧
    "[ext]".data <:+: assetModuleFilenameTmpl.data ∧
    assetOutputName dir₁ nm ext hash₁ = nm ++ ext ∧
    assetOutputName dir₁ nm ext hash₁ = assetOutputName dir₂ nm ext hash₂ := by
  have hred : assetOutputName dir₁ nm ext hash₁ = nm ++ (ext ++ ([] : List Char)) :=
    rfl
  refine ⟨by decide, by decide, by decide, ?_, rfl⟩
  rw [hred, List.append_nil]

end WebpackOverview
